import Mathlib

/-
Verification of the meld-resolution core of the Rummikub solver service
(`main.py`).  Tiles are modelled by `Tok`: the solver hands the formatting
layer lists of tile strings such as "k5" (color letter + number) and "j"
(the joker), and the resolution functions prepend a one-character tag
string "r" (run) or "g" (group).  `Tok.tile c n` stands for a tile string
with color index `c` (k=0, b=1, o=2, r=3) and number `n`; `Tok.joker`
stands for "j"; `Tok.tagR` / `Tok.tagG` stand for the tag strings.
Fallible code (Python IndexError sites) is modelled with `Option`.
-/

inductive Tok where
  | tagR : Tok
  | tagG : Tok
  | joker : Tok
  | tile : Nat → Int → Tok
deriving DecidableEq

/-- `int(tile[1:])` for a tile string; jokers and tags never reach this
in the source paths modelled here. -/
def numOf : Tok → Int
  | Tok.tile _ n => n
  | _ => 0

/-- `tile[0]` (the color letter) of a tile string, as a color index. -/
def colorOf : Tok → Nat
  | Tok.tile c _ => c
  | _ => 0

/-- Insertion step for modelling Python's `sorted` / `list.sort` on ints. -/
def insertSorted (x : Int) : List Int → List Int
  | [] => [x]
  | y :: ys => if x ≤ y then x :: y :: ys else y :: insertSorted x ys

/-- Python's `sorted` on a list of ints (ascending). -/
def sortInts (l : List Int) : List Int := l.foldr insertSorted []

/-- `sum_group` (main.py lines 38-47): drop the tag, count jokers,
take the first concrete tile's number as the base value, and score
base × (concrete count) + base × (joker count).  `none` models the
IndexError raised by `numbers[0]` when there is no concrete tile. -/
def sum_group (tile_set : List Tok) : Option (List Tok × Int) :=
  let tiles := tile_set.drop 1
  let joker_count : Int := (tiles.count Tok.joker : Int)
  let real_tiles := tiles.filter (fun t => t ≠ Tok.joker)
  let numbers := real_tiles.map numOf
  match numbers with
  | [] => none
  | base_value :: _ =>
    some (tile_set, base_value * (real_tiles.length : Int) + base_value * joker_count)

/-- `filled_numbers[-1]` of a nonempty list (0 is never used: callers
pass nonempty lists). -/
def lastVal : List Int → Int
  | [] => 0
  | [a] => a
  | _ :: b :: rest => lastVal (b :: rest)

/-- The gap-filling while loop of `place_joker_in_run` (lines 59-77):
walks consecutive sorted numbers, fills a gap with jokers when enough
remain, and `break`s (returning the prefix built so far) otherwise.
Returns (filled prefix without the final number, inserted_jokers). -/
def fill_gaps : List Int → Int → Int → List Int × Int
  | a :: b :: rest, joker_count, inserted =>
    if b - a = 1 then
      let r := fill_gaps (b :: rest) joker_count inserted
      (a :: r.1, r.2)
    else if b - a > 1 then
      if inserted + (b - a - 1) ≤ joker_count then
        let r := fill_gaps (b :: rest) joker_count (inserted + (b - a - 1))
        (a :: ((List.range (b - a - 1).toNat).map (fun j => a + (j : Int) + 1) ++ r.1), r.2)
      else
        ([a], inserted)
    else
      let r := fill_gaps (b :: rest) joker_count inserted
      (a :: r.1, r.2)
  | _, _, inserted => ([], inserted)

/-- The extension while loop of `place_joker_in_run` (lines 81-88):
while jokers remain, append `last+1` if the last number is below the
hard-coded bound 13, else prepend `first-1` if the first is above 1,
else stop.  `fuel` is the number of jokers still to place. -/
def extend_run : Nat → List Int → List Int
  | 0, l => l
  | _ + 1, [] => []
  | fuel + 1, a :: l =>
    if lastVal (a :: l) < 13 then extend_run fuel ((a :: l) ++ [lastVal (a :: l) + 1])
    else if a > 1 then extend_run fuel ((a - 1) :: a :: l)
    else a :: l

/-- Lines 55-90 of `place_joker_in_run`: the sorted, gap-filled and
extended list of numbers the resolved run will carry.  `none` models the
IndexError of `numbers[-1]` on a meld with no concrete tile. -/
def run_filled (tile_set : List Tok) : Option (List Int) :=
  let tiles := (tile_set.drop 1).filter (fun t => t ≠ Tok.joker)
  let joker_count : Int := (tile_set.count Tok.joker : Int)
  let numbers := sortInts (tiles.map numOf)
  match numbers with
  | [] => none
  | n0 :: ns =>
    let fg := fill_gaps (n0 :: ns) joker_count 0
    let filled := fg.1 ++ [lastVal (n0 :: ns)]
    some (sortInts (extend_run (joker_count - fg.2).toNat filled))

/-- The reconstruction loop of `place_joker_in_run` (lines 92-105):
walk the filled numbers, consuming the concrete tiles (in input order)
where the number matches, writing a joker otherwise, and summing every
number. -/
def rebuild_run : List Int → List Tok → List Tok × Int
  | [], _ => ([], 0)
  | num :: rest, [] =>
    let r := rebuild_run rest []
    (Tok.joker :: r.1, r.2 + num)
  | num :: rest, t :: tc =>
    if numOf t = num then
      let r := rebuild_run rest tc
      (t :: r.1, r.2 + num)
    else
      let r := rebuild_run rest (t :: tc)
      (Tok.joker :: r.1, r.2 + num)

/-- `place_joker_in_run` (lines 50-105).  A set not tagged "r" or
containing no joker is summed as-is (line 52); otherwise the numbers are
gap-filled and extended and the set rebuilt around them. -/
def place_joker_in_run (tile_set : List Tok) : Option (List Tok × Int) :=
  if tile_set.headD Tok.tagG ≠ Tok.tagR ∨ Tok.joker ∉ tile_set then
    some (tile_set, (((tile_set.drop 1).filter (fun t => t ≠ Tok.joker)).map numOf).sum)
  else
    match run_filled tile_set with
    | none => none
    | some filled =>
      let r := rebuild_run filled ((tile_set.drop 1).filter (fun t => t ≠ Tok.joker))
      some (Tok.tagR :: r.1, r.2)

/-- `len(set(colors))` of `identify`: the number of distinct colors among
the concrete tiles of an (untagged) meld. -/
def numColorsOf (tile_set : List Tok) : Nat :=
  ((tile_set.filter (fun t => t ≠ Tok.joker)).map colorOf).eraseDups.length

/-- `identify` (lines 185-226): dispatch on joker count and distinct
colors; the two-or-more-jokers, one-color, size-3 shape is ambiguous and
compares the group and run interpretations when `initial_meld`. -/
def identify (initial_meld : Bool) (tile_set : List Tok) : Option (List Tok × Int) :=
  if tile_set.count Tok.joker = 0 then
    if numColorsOf tile_set = 1 then place_joker_in_run (Tok.tagR :: tile_set)
    else sum_group (Tok.tagG :: tile_set)
  else if tile_set.count Tok.joker = 1 then
    if numColorsOf tile_set = 1 then place_joker_in_run (Tok.tagR :: tile_set)
    else sum_group (Tok.tagG :: tile_set)
  else
    if numColorsOf tile_set = 1 ∧ tile_set.length = 3 then
      match sum_group (Tok.tagG :: tile_set), place_joker_in_run (Tok.tagR :: tile_set) with
      | some gr, some rr =>
        if initial_meld then
          if rr.2 > gr.2 then some rr else some gr
        else sum_group (Tok.tagG :: tile_set)
      | _, _ => none
    else if numColorsOf tile_set = 1 ∧ 3 < tile_set.length then
      place_joker_in_run (Tok.tagR :: tile_set)
    else sum_group (Tok.tagG :: tile_set)

/-- The per-meld loop of `solve_game` (lines 228-234): each meld that
`identify` resolves contributes its value and is appended (as the RAW
input list `lset`, line 232) to `labeled_sets`; a meld whose resolution
raises is skipped.  Returns (labeled_sets, point_value). -/
def process_sets (initial_meld : Bool) : List (List Tok) → List (List Tok) × Int
  | [] => ([], 0)
  | lset :: rest =>
    let r := process_sets initial_meld rest
    match identify initial_meld lset with
    | some p => (lset :: r.1, p.2 + r.2)
    | none => r

/-- The `Move` response model (lines 123-129), restricted to the fields
the resolution layer fills. -/
structure Move where
  tiles_to_play : List Tok
  sets_to_make : List (List Tok)
  value : Int
  success : Bool
  message : String
  joker_value : Option Int
deriving DecidableEq

/-- The response-formatting tail of `solve_game` (lines 166-252), taking
the solver collaborator's outputs (`value`, the readable tiles and sets)
as inputs: the zero-value rejection, the per-meld resolution loop, the
initial-meld 30-point gate, and the success response. -/
def solve_game (initial_meld : Bool) (value : Int) (readable_tiles : List Tok)
    (readable_sets : List (List Tok)) : Move :=
  if value = 0 then
    { tiles_to_play := [], sets_to_make := [], value := 0, success := false,
      message := "No valid move found - should pick up a tile.", joker_value := none }
  else if initial_meld ∧ (process_sets initial_meld readable_sets).2 < 30 then
    { tiles_to_play := [], sets_to_make := [], value := value, success := false,
      message := "Initial meld requires 30+ points. Current play: "
        ++ toString (process_sets initial_meld readable_sets).2 ++ " points.",
      joker_value := none }
  else
    { tiles_to_play := readable_tiles,
      sets_to_make := (process_sets initial_meld readable_sets).1,
      value := value, success := true,
      message := "Valid move found. Point value: "
        ++ toString (process_sets initial_meld readable_sets).2,
      joker_value := none }

/-- A meld whose distinct-color count is not 1 is always dispatched to
`sum_group` by `identify`, whatever the joker count. -/
theorem identify_not_one_color (im : Bool) (ts : List Tok) (h : numColorsOf ts ≠ 1) :
    identify im ts = sum_group (Tok.tagG :: ts) := by
  unfold identify
  have hc1 : ¬(numColorsOf ts = 1 ∧ ts.length = 3) := fun hh => h hh.1
  have hc2 : ¬(numColorsOf ts = 1 ∧ 3 < ts.length) := fun hh => h hh.1
  by_cases h0 : ts.count Tok.joker = 0
  · rw [if_pos h0, if_neg h]
  · rw [if_neg h0]
    by_cases h1 : ts.count Tok.joker = 1
    · rw [if_pos h1, if_neg h]
    · rw [if_neg h1, if_neg hc1, if_neg hc2]

/-- Evaluation of `sum_group` on a tagged meld whose concrete tiles are
`t0 :: rest`: the base value is `numOf t0`. -/
theorem sum_group_eval (ts : List Tok) (t0 : Tok) (rest : List Tok)
    (hfil : ts.filter (fun t => t ≠ Tok.joker) = t0 :: rest) :
    sum_group (Tok.tagG :: ts)
      = some (Tok.tagG :: ts,
          numOf t0 * ((t0 :: rest).length : Int)
            + numOf t0 * (ts.count Tok.joker : Int)) := by
  unfold sum_group
  simp only [List.drop_succ_cons, List.drop_zero, hfil, List.map_cons]

/-- Concrete tiles plus jokers partition a meld. -/
theorem length_filter_add_count (ts : List Tok) :
    (ts.filter (fun t => t ≠ Tok.joker)).length + ts.count Tok.joker = ts.length := by
  induction ts with
  | nil => rfl
  | cons a l ih =>
    by_cases h : a = Tok.joker
    · subst h
      simp only [List.filter_cons, List.count_cons]
      simp at ih ⊢
      omega
    · simp only [List.filter_cons, List.count_cons]
      simp [h] at ih ⊢
      omega

/-- `labeled_sets` collects exactly the input melds `identify` resolves,
in order and verbatim. -/
theorem process_sets_fst (im : Bool) (rs : List (List Tok)) :
    (process_sets im rs).1 = rs.filter (fun l => (identify im l).isSome) := by
  induction rs with
  | nil => rfl
  | cons l rest ih =>
    simp only [process_sets, List.filter_cons]
    cases h : identify im l with
    | none => simp [h, ih]
    | some p => simp [h, ih]

/-- C1: with `isInitialMeld = true`, a nonzero solver value and a resolved
point total below 30, `solve_game` rejects the move: `success = false`,
empty `sets_to_make`, and a message naming the 30-point threshold and the
computed total. -/
theorem C1_initial_meld_gate (value : Int) (rt : List Tok) (rs : List (List Tok))
    (hv : ¬ value = 0) (h30 : (process_sets true rs).2 < 30) :
    (solve_game true value rt rs).success = false
    ∧ (solve_game true value rt rs).sets_to_make = []
    ∧ (solve_game true value rt rs).message
        = "Initial meld requires 30+ points. Current play: "
            ++ toString (process_sets true rs).2 ++ " points." := by
  unfold solve_game
  rw [if_neg hv, if_pos ⟨rfl, h30⟩]
  exact ⟨rfl, rfl, rfl⟩

theorem C1_initial_meld_gate_witness :
    (solve_game true 1 [] []).success = false
    ∧ (solve_game true 1 [] []).sets_to_make = []
    ∧ (solve_game true 1 [] []).message
        = "Initial meld requires 30+ points. Current play: 0 points." := by
  have h := C1_initial_meld_gate 1 [] [] (by decide) (by decide)
  exact ⟨h.1, h.2.1, h.2.2.trans (by rfl)⟩

/-- C2 counterexample: a two-color group with one wildcard resolves with
value 15, but the output tile list keeps the unresolved joker marker —
no concrete color/number substitute is ever assigned to it. -/
theorem C2_wildcard_kept :
    identify false [Tok.tile 0 5, Tok.tile 1 5, Tok.joker]
      = some ([Tok.tagG, Tok.tile 0 5, Tok.tile 1 5, Tok.joker], 15)
    ∧ Tok.joker ∈ [Tok.tagG, Tok.tile 0 5, Tok.tile 1 5, Tok.joker] := by decide

/-- C2 (amended): a meld whose concrete tiles all carry number `v` and
span at least two colors is classified as a group and scored
`size × v` (each wildcard contributing `v`), but the returned tile list
is the input with a group tag prepended — wildcards stay `joker`. -/
theorem C2_group_value (im : Bool) (ts : List Tok) (v : Int)
    (hall : ∀ t ∈ ts, t ≠ Tok.joker → numOf t = v)
    (hcol : 2 ≤ numColorsOf ts) :
    identify im ts = some (Tok.tagG :: ts, (ts.length : Int) * v) := by
  obtain ⟨t0, rest, hfil⟩ : ∃ t0 rest, ts.filter (fun t => t ≠ Tok.joker) = t0 :: rest := by
    cases hf : ts.filter (fun t => t ≠ Tok.joker) with
    | nil =>
      exfalso
      have h0 : numColorsOf ts = 0 := by unfold numColorsOf; rw [hf]; rfl
      omega
    | cons x xs => exact ⟨x, xs, rfl⟩
  have ht0 : numOf t0 = v := by
    have hmem : t0 ∈ ts.filter (fun t => t ≠ Tok.joker) := by
      rw [hfil]; exact List.mem_cons_self _ _
    have hm := List.mem_filter.mp hmem
    exact hall t0 hm.1 (by simpa using hm.2)
  rw [identify_not_one_color im ts (by omega), sum_group_eval ts t0 rest hfil, ht0]
  have hlen : (t0 :: rest).length + ts.count Tok.joker = ts.length := by
    rw [← hfil]; exact length_filter_add_count ts
  have harith : v * (((t0 :: rest).length : Nat) : Int) + v * ((ts.count Tok.joker : Nat) : Int)
      = ((ts.length : Nat) : Int) * v := by
    rw [← hlen]; push_cast; ring
  rw [harith]

theorem C2_group_value_witness :
    identify false [Tok.tile 0 4, Tok.tile 1 4, Tok.tile 2 4, Tok.joker]
      = some (Tok.tagG :: [Tok.tile 0 4, Tok.tile 1 4, Tok.tile 2 4, Tok.joker],
          (([Tok.tile 0 4, Tok.tile 1 4, Tok.tile 2 4, Tok.joker] : List Tok).length : Int) * 4) :=
  C2_group_value false _ 4 (by decide) (by decide)

/-- C3: the run `[2,3,7]` with one wildcard cannot be made contiguous, yet
`identify` does NOT fail: the gap loop `break`s and the wildcard instead
extends the top end, yielding the non-contiguous number sequence
`[2,3,7,8]` scored as 20 — the meld is kept, not dropped. -/
theorem C3_unfillable_gap_scored :
    identify false [Tok.tile 0 2, Tok.tile 0 3, Tok.tile 0 7, Tok.joker]
      = some ([Tok.tagR, Tok.tile 0 2, Tok.tile 0 3, Tok.tile 0 7, Tok.joker], 20)
    ∧ run_filled [Tok.tagR, Tok.tile 0 2, Tok.tile 0 3, Tok.tile 0 7, Tok.joker]
      = some [2, 3, 7, 8] := by decide

/-- C4 counterexample: for the ambiguous meld (tile (0,5), two wildcards)
with `initial_meld = true`, the run interpretation is `[5,6,7]` worth 18
(upward extension from 5), not a 15- or 12-valued run around 5; the code
therefore picks Run(18) where the claim predicts Group(15). -/
theorem C4_run_beats_group :
    identify true [Tok.tile 0 5, Tok.joker, Tok.joker]
      = some ([Tok.tagR, Tok.tile 0 5, Tok.joker, Tok.joker], 18) := by decide

set_option maxHeartbeats 1000000 in
/-- C4 (amended): for an ambiguous meld of one tile `(c, v)` plus two
wildcards, the run candidate extends upward from `v` (hard bound 13,
then downward).  For `v ≤ 11` it is `[v, v+1, v+2]` worth `3v+3 > 3v`,
so with `initial_meld = true` Run wins; at `v = 12` the candidate is
`[11,12,13]` worth 36 = group value (tie → Group) and at `v = 13` it is
worth 36 < 39 (Group).  With `initial_meld = false` the choice is always
Group, worth `3v`. -/
theorem C4_ambiguous_policy :
    (∀ (c : Fin 4) (v : Fin 11),
      identify true [Tok.tile c.val ((v.val : Int) + 1), Tok.joker, Tok.joker]
        = some ([Tok.tagR, Tok.tile c.val ((v.val : Int) + 1), Tok.joker, Tok.joker],
            3 * ((v.val : Int) + 1) + 3))
    ∧ (∀ (c : Fin 4) (v : Fin 13),
      identify false [Tok.tile c.val ((v.val : Int) + 1), Tok.joker, Tok.joker]
        = some ([Tok.tagG, Tok.tile c.val ((v.val : Int) + 1), Tok.joker, Tok.joker],
            3 * ((v.val : Int) + 1)))
    ∧ (∀ (c : Fin 4),
      identify true [Tok.tile c.val 12, Tok.joker, Tok.joker]
        = some ([Tok.tagG, Tok.tile c.val 12, Tok.joker, Tok.joker], 36)
      ∧ identify true [Tok.tile c.val 13, Tok.joker, Tok.joker]
        = some ([Tok.tagG, Tok.tile c.val 13, Tok.joker, Tok.joker], 39)) := by decide

/-- C5 counterexample: an accepted move's `sets_to_make` entry is the raw
input meld (no Run/Group tag, wildcard unsubstituted), not the resolved
form `[tagR, joker, 12, 13]` that `identify` computed for scoring. -/
theorem C5_raw_meld_returned :
    (solve_game false 1 [] [[Tok.tile 0 12, Tok.tile 0 13, Tok.joker]]).success = true
    ∧ (solve_game false 1 [] [[Tok.tile 0 12, Tok.tile 0 13, Tok.joker]]).sets_to_make
        = [[Tok.tile 0 12, Tok.tile 0 13, Tok.joker]]
    ∧ (solve_game false 1 [] [[Tok.tile 0 12, Tok.tile 0 13, Tok.joker]]).sets_to_make
        ≠ [[Tok.tagR, Tok.joker, Tok.tile 0 12, Tok.tile 0 13]] := by decide

/-- C5 (amended): in every accepted move, `sets_to_make` is exactly the
sublist of input melds that `identify` resolved, each kept verbatim
(untagged, wildcards still jokers); the resolved form is used only for
the point value. -/
theorem C5_sets_to_make_raw (im : Bool) (value : Int) (rt : List Tok) (rs : List (List Tok))
    (hv : ¬ value = 0) (hg : ¬(im = true ∧ (process_sets im rs).2 < 30)) :
    (solve_game im value rt rs).sets_to_make
      = rs.filter (fun l => (identify im l).isSome) := by
  unfold solve_game
  rw [if_neg hv, if_neg hg]
  exact process_sets_fst im rs

theorem C5_sets_to_make_raw_witness :
    (solve_game false 1 [] [[Tok.tile 0 3, Tok.tile 0 4, Tok.joker]]).sets_to_make
      = [[Tok.tile 0 3, Tok.tile 0 4, Tok.joker]].filter
          (fun l => (identify false l).isSome) :=
  C5_sets_to_make_raw false 1 [] _ (by decide) (by decide)

/-- C6 counterexample: a meld with three distinct colors AND three
distinct numbers (no wildcards) is not rejected as Invalid — `identify`
scores it as a group, using the first tile's number as base: value 15. -/
theorem C6_mixed_meld_scored :
    identify false [Tok.tile 0 5, Tok.tile 1 6, Tok.tile 2 7]
      = some ([Tok.tagG, Tok.tile 0 5, Tok.tile 1 6, Tok.tile 2 7], 15) := by decide

/-- C6 (amended): every meld whose concrete tiles span at least two
distinct colors — whatever its numbers — is dispatched to the group
scorer and scored `base × size`, with `base` the first concrete tile's
number; no Invalid classification exists in the code. -/
theorem C6_two_colors_scored_group (im : Bool) (ts : List Tok) (t0 : Tok) (rest : List Tok)
    (hcol : 2 ≤ numColorsOf ts)
    (hfil : ts.filter (fun t => t ≠ Tok.joker) = t0 :: rest) :
    identify im ts
      = some (Tok.tagG :: ts,
          numOf t0 * ((t0 :: rest).length : Int)
            + numOf t0 * (ts.count Tok.joker : Int)) := by
  rw [identify_not_one_color im ts (by omega), sum_group_eval ts t0 rest hfil]

theorem C6_two_colors_scored_group_witness :
    identify false [Tok.tile 0 4, Tok.tile 1 6, Tok.tile 2 7]
      = some ([Tok.tagG, Tok.tile 0 4, Tok.tile 1 6, Tok.tile 2 7], 12) := by
  have h := C6_two_colors_scored_group false [Tok.tile 0 4, Tok.tile 1 6, Tok.tile 2 7]
    (Tok.tile 0 4) [Tok.tile 1 6, Tok.tile 2 7] (by decide) (by decide)
  simpa [numOf] using h

/-- C7: the run-extension bounds are hard-coded to `[1, 13]` — the
function has no ruleset parameter at all.  On the meld `[9, 10]` plus a
wildcard, legal input under a custom `numberRange = [1, 10]`, the
wildcard is placed at 11, outside that range. -/
theorem C7_bound_hardcoded :
    run_filled [Tok.tagR, Tok.tile 0 9, Tok.tile 0 10, Tok.joker] = some [9, 10, 11]
    ∧ place_joker_in_run [Tok.tagR, Tok.tile 0 9, Tok.tile 0 10, Tok.joker]
      = some ([Tok.tagR, Tok.tile 0 9, Tok.tile 0 10, Tok.joker], 30) := by decide

/-- C8: for the run `[12, 13]` with one wildcard, upward extension past
13 is impossible, so the wildcard extends downward: the filled sequence
is `[11, 12, 13]`, the resolved set places the joker in the 11 slot, and
the value is 36. -/
theorem C8_downward_extension :
    run_filled [Tok.tagR, Tok.tile 0 12, Tok.tile 0 13, Tok.joker] = some [11, 12, 13]
    ∧ identify false [Tok.tile 0 12, Tok.tile 0 13, Tok.joker]
      = some ([Tok.tagR, Tok.joker, Tok.tile 0 12, Tok.tile 0 13], 36) := by decide

/-- C9: the resolution pipeline is a pure function of the selection, the
flag and the solver value — two invocations on equal inputs produce equal
`Move` results, with no hidden state. -/
theorem C9_deterministic (im im' : Bool) (v v' : Int) (rt rt' : List Tok)
    (rs rs' : List (List Tok))
    (h : im = im' ∧ v = v' ∧ rt = rt' ∧ rs = rs') :
    solve_game im v rt rs = solve_game im' v' rt' rs' := by
  obtain ⟨h1, h2, h3, h4⟩ := h
  subst h1; subst h2; subst h3; subst h4
  rfl

theorem C9_deterministic_witness :
    solve_game false 1 [] [] = solve_game false 1 [] [] :=
  C9_deterministic false false 1 1 [] [] [] [] ⟨rfl, rfl, rfl, rfl⟩

/-- C10: group scoring's base-value access is safe whenever the meld has
a concrete tile (`sum_group` returns a result); on an all-wildcard meld
it fails (`identify = none`, the modelled IndexError), and the per-meld
loop drops exactly that meld while processing the rest. -/
theorem C10_group_safety (im : Bool) (ts : List Tok) (c : Nat) (n : Int)
    (l : List Tok) (rest : List (List Tok))
    (hmem : Tok.tile c n ∈ ts) (halljoker : ∀ t ∈ l, t = Tok.joker) :
    (sum_group (Tok.tagG :: ts)).isSome = true
    ∧ identify im l = none
    ∧ process_sets im (l :: rest) = process_sets im rest := by
  have hfl : l.filter (fun t => t ≠ Tok.joker) = [] := by
    rw [List.filter_eq_nil_iff]
    intro a ha
    simp [halljoker a ha]
  have hid : identify im l = none := by
    have hnc : numColorsOf l ≠ 1 := by
      unfold numColorsOf; rw [hfl]; decide
    rw [identify_not_one_color im l hnc]
    unfold sum_group
    simp only [List.drop_succ_cons, List.drop_zero, hfl, List.map_nil]
  refine ⟨?_, hid, ?_⟩
  · obtain ⟨t0, rest', hfil⟩ : ∃ t0 rest', ts.filter (fun t => t ≠ Tok.joker) = t0 :: rest' := by
      cases hf : ts.filter (fun t => t ≠ Tok.joker) with
      | nil =>
        exfalso
        have hmf : Tok.tile c n ∈ ts.filter (fun t => t ≠ Tok.joker) :=
          List.mem_filter.mpr ⟨hmem, by simp⟩
        rw [hf] at hmf
        simp at hmf
      | cons x xs => exact ⟨x, xs, rfl⟩
    rw [sum_group_eval ts t0 rest' hfil]
    rfl
  · simp only [process_sets, hid]

theorem C10_group_safety_witness :
    (sum_group (Tok.tagG :: [Tok.tile 0 5, Tok.joker])).isSome = true
    ∧ identify false [Tok.joker, Tok.joker, Tok.joker] = none
    ∧ process_sets false ([Tok.joker, Tok.joker, Tok.joker] :: [[Tok.tile 1 2]])
        = process_sets false [[Tok.tile 1 2]] :=
  C10_group_safety false [Tok.tile 0 5, Tok.joker] 0 5
    [Tok.joker, Tok.joker, Tok.joker] [[Tok.tile 1 2]] (by decide) (by decide)
